import Mathlib

/-!
Verification of the p2p chat / file-transfer program (src/p2p.py).

The development is a shallow embedding of the program's session logic:

* JSON texts exchanged on the data channel are modelled at the level of
  their parse result (`TextMsg`): a text either fails `json.loads`
  (`TextMsg.raw`, carrying the wire string) or parses to a `JVal`
  (`TextMsg.json`, carrying both the wire string and the value).
  JSON values are modelled up to flat objects of primitives, which covers
  every envelope the program itself produces or inspects — the dispatch
  logic only ever reads top-level fields.
* Python dictionaries (`incoming_files`, the on-disk files) are modelled as
  insertion-ordered association lists with the update / lookup / pop
  semantics of `dict`.
* Machine bytes are `Nat`s; file contents are `List Nat`.
* Console prints that matter to the protocol's observable behaviour are
  collected as `Output` events; the `DEBUG:` trace print at the top of
  `on_message_received` is pure logging and is not modelled.
-/

/-- A primitive JSON value (null, boolean, number, string). -/
inductive JPrim where
  | pnull : JPrim
  | pbool (b : Bool) : JPrim
  | pnat (n : Nat) : JPrim
  | pstr (s : String) : JPrim
deriving DecidableEq, Repr

/-- A JSON document: either a primitive, an array of primitives, or a flat
object mapping string keys to primitives.  All envelopes produced by
src/p2p.py (`file_meta`, the SDP exchange record) are flat objects. -/
inductive JVal where
  | prim (p : JPrim) : JVal
  | jarr (xs : List JPrim) : JVal
  | jobj (fields : List (String × JPrim)) : JVal
deriving DecidableEq, Repr

/-- Python `d[k]` lookup on an insertion-ordered dictionary (first match;
JSON objects and the program's dicts never carry duplicate keys). -/
def dictGet {α : Type} (d : List (String × α)) (key : String) : Option α :=
  (d.find? (fun p => p.1 == key)).map (fun p => p.2)

/-- Python `d[k] = v`: replace in place if the key exists, else append. -/
def dictInsert {α : Type} (d : List (String × α)) (key : String) (v : α) :
    List (String × α) :=
  if d.any (fun p => p.1 == key) then
    d.map (fun p => if p.1 == key then (key, v) else p)
  else d ++ [(key, v)]

/-- Python `d.pop(k)`: remove the entry with the given key. -/
def dictPop {α : Type} (d : List (String × α)) (key : String) :
    List (String × α) :=
  d.filter (fun p => p.1 != key)

/-- The outcome of running `json.loads` on a textual channel message:
either the text is not a JSON document (`raw`, the wire string itself), or
it parses to a value (`json`, keeping the wire string alongside the value
because the `except` branch of `on_message_received` prints the original
string). -/
inductive TextMsg where
  | raw (s : String) : TextMsg
  | json (wire : String) (v : JVal) : TextMsg
deriving DecidableEq, Repr

/-- A message delivered by the data channel: text or binary. -/
inductive WireMessage where
  | text (t : TextMsg) : WireMessage
  | binary (payload : List Nat) : WireMessage
deriving DecidableEq, Repr

/-- Observable console events of the receive path of src/p2p.py. -/
inductive Output where
  | chatRaw (s : String) : Output
  | chatJson (v : JVal) : Output
  | incomingFileNote (name : String) (size : Nat) : Output
  | savedAsNote (name : String) : Output
  | fileReceivedNote (name : String) : Output
  | chunkWarning : Output
deriving DecidableEq, Repr

/-- One value of the `incoming_files` dictionary (src/p2p.py lines
198-203); the open handle is modelled by the `disk` component of
`ReceiverState`, keyed by `"received_" ++ file_name`. -/
structure FileEntry where
  file_name : String
  file_size : Nat
  received_bytes : Nat
deriving DecidableEq, Repr

/-- Receive-side state: the global `incoming_files` dictionary plus the
local files written through the open handles (path ↦ bytes written). -/
structure ReceiverState where
  incoming_files : List (String × FileEntry)
  disk : List (String × List Nat)
deriving DecidableEq, Repr

def emptyReceiver : ReceiverState := ⟨[], []⟩

/-- Append bytes to an on-disk file through its open handle (the handle
exists exactly when `open_file_receiver` created the disk entry). -/
def diskWrite (d : List (String × List Nat)) (key : String)
    (bytes : List Nat) : List (String × List Nat) :=
  d.map (fun p => if p.1 == key then (p.1, p.2 ++ bytes) else p)

def diskLookup (d : List (String × List Nat)) (key : String) :
    Option (List Nat) :=
  dictGet d key

/-- src/p2p.py lines 194-204, `open_file_receiver`: unconditionally store a
fresh entry in `incoming_files` and open `received_<name>` in `"wb"` mode
(truncating any previous content), printing the saved-as note. -/
def open_file_receiver (s : ReceiverState) (file_name : String)
    (file_size : Nat) : ReceiverState × List Output :=
  (⟨dictInsert s.incoming_files file_name ⟨file_name, file_size, 0⟩,
    dictInsert s.disk ("received_" ++ file_name) []⟩,
   [Output.savedAsNote file_name])

/-- src/p2p.py lines 206-222, `handle_binary_message`: if `incoming_files`
has exactly one entry, write the chunk through its handle and advance its
byte counter, finalizing (close handle, print, pop) once the counter
reaches the announced size; otherwise print the warning and discard the
chunk. -/
def handle_binary_message (s : ReceiverState) (payload : List Nat) :
    ReceiverState × List Output :=
  match s.incoming_files with
  | [(k, fi)] =>
    let disk' := diskWrite s.disk ("received_" ++ fi.file_name) payload
    let fi' : FileEntry :=
      ⟨fi.file_name, fi.file_size, fi.received_bytes + payload.length⟩
    if fi'.file_size ≤ fi'.received_bytes then
      (⟨dictPop [(k, fi')] fi'.file_name, disk'⟩,
       [Output.fileReceivedNote fi'.file_name])
    else
      (⟨[(k, fi')], disk'⟩, [])
  | _ => (s, [Output.chunkWarning])

/-- src/p2p.py lines 168-192, `on_message_received`: binary messages go to
`handle_binary_message`; texts that parse as a JSON object with
`type == "file_meta"` and string / integer `file_name` / `file_size`
fields open a receiver; a JSON object with any other (or no) `type` is
printed as chat (`print("Peer:", data)`); any other text — unparsable, a
non-object JSON document (whose `.get` raises `AttributeError`), or a
`file_meta` object with missing or ill-typed fields (`KeyError`) — falls
to the `except` branch and is printed as chat verbatim. -/
def on_message_received (s : ReceiverState) (m : WireMessage) :
    ReceiverState × List Output :=
  match m with
  | WireMessage.binary payload => handle_binary_message s payload
  | WireMessage.text t =>
    match t with
    | TextMsg.raw str => (s, [Output.chatRaw str])
    | TextMsg.json wire v =>
      match v with
      | JVal.jobj fields =>
        if dictGet fields "type" = some (JPrim.pstr "file_meta") then
          match dictGet fields "file_name", dictGet fields "file_size" with
          | some (JPrim.pstr name), some (JPrim.pnat size) =>
            let r := open_file_receiver s name size
            (r.1, Output.incomingFileNote name size :: r.2)
          | _, _ => (s, [Output.chatRaw wire])
        else (s, [Output.chatJson v])
      | _ => (s, [Output.chatRaw wire])

/-- Deliver a list of channel messages to `on_message_received` in order,
collecting the printed outputs. -/
def run_messages : ReceiverState → List WireMessage →
    ReceiverState × List Output
  | s, [] => (s, [])
  | s, m :: ms =>
    let r1 := on_message_received s m
    let r2 := run_messages r1.1 ms
    (r2.1, r1.2 ++ r2.2)

/-- The protocol's chunk-size constant (src/p2p.py line 158). -/
def chunk_size : Nat := 16000

/-- The `f.read(chunk_size)` loop of `send_file` (src/p2p.py lines
159-164): split the file content into successive chunks of at most
`chunk_size` bytes, the final chunk possibly short, an empty file yielding
no chunks at all. -/
def chunksOf (bytes : List Nat) : List (List Nat) :=
  if h : bytes = [] then []
  else bytes.take chunk_size :: chunksOf (bytes.drop chunk_size)
termination_by bytes.length
decreasing_by
  simp only [List.length_drop]
  have : bytes.length ≠ 0 := fun hz => h (List.eq_nil_of_length_eq_zero hz)
  simp [chunk_size]
  omega

/-- Python `os.path.basename` restricted to `/`-separated paths: the component
after the last separator. -/
def basename (p : String) : String :=
  ((p.splitOn "/").getLast?).getD p

/-- The local file system seen by the sender: path ↦ byte content of a
regular file (`os.path.isfile`, `os.path.getsize`, `open(..., "rb")` are
modelled as lookups here). -/
def fileLookup (fs : List (String × List Nat)) (p : String) :
    Option (List Nat) :=
  dictGet fs p

def isfile (fs : List (String × List Nat)) (p : String) : Bool :=
  (fileLookup fs p).isSome

/-- The wire string produced by `json.dumps` for the metadata envelope of
src/p2p.py lines 150-154 (keys in the dict's insertion order, default
`json.dumps` separators). -/
def dumpsFileMeta (file_name : String) (file_size : Nat) : String :=
  "\x7b\"file_name\": \"" ++ file_name ++ "\", \"file_size\": " ++
    toString file_size ++ ", \"type\": \"file_meta\"\x7d"

/-- The parse of the metadata envelope back on the receiving side
(`json.loads` of `dumpsFileMeta`). -/
def metaJVal (file_name : String) (file_size : Nat) : JVal :=
  JVal.jobj [("file_name", JPrim.pstr file_name),
             ("file_size", JPrim.pnat file_size),
             ("type", JPrim.pstr "file_meta")]

/-- The metadata envelope as a channel message. -/
def fileMetaMsg (file_name : String) (file_size : Nat) : WireMessage :=
  WireMessage.text (TextMsg.json (dumpsFileMeta file_name file_size)
    (metaJVal file_name file_size))

/-- src/p2p.py lines 141-166, `send_file`: announce
`{file_name, file_size, type: "file_meta"}` with the basename and
`os.path.getsize` of the path, then stream the file as binary chunks of
`chunk_size` bytes (final chunk short, no padding, no trailing
sentinel).  The file's content is read from the file-system map; callers
(`on_channel_open`) guard existence with `os.path.isfile`. -/
def send_file (fs : List (String × List Nat)) (file_path : String) :
    List WireMessage :=
  let file_name := basename file_path
  let content := (fileLookup fs file_path).getD []
  fileMetaMsg file_name content.length ::
    (chunksOf content).map WireMessage.binary

/-- Python `str.strip()` with no argument: remove leading and trailing
whitespace characters. -/
def pystrip (s : String) : String :=
  ⟨((s.data.dropWhile Char.isWhitespace).reverse.dropWhile
      Char.isWhitespace).reverse⟩

/-- Python `str.lower()` (on the ASCII range, which covers the `"bye"`
sentinel comparison). -/
def pylower (s : String) : String :=
  ⟨s.data.map Char.toLower⟩

/-- src/p2p.py lines 127-139, `chat_prompt`, run over a list of operator
input lines: each line is stripped; a line empty after stripping is
skipped (`if not message: continue`); a stripped line equal to `"bye"`
case-insensitively sends the departure announcement and ends the loop;
any other line is sent in its stripped form.  The result is the list of
strings passed to `channel.send` (the loop never calls
`channel.close`). -/
def chat_prompt : List String → List String
  | [] => []
  | line :: rest =>
    let message := pystrip line
    if message = "" then chat_prompt rest
    else if pylower message = "bye" then ["Peer has left the chat."]
    else message :: chat_prompt rest

/-- The two mutually exclusive send-side modes of src/p2p.py lines
120-125. -/
inductive PeerMode where
  | fileSend : PeerMode
  | chat : PeerMode
deriving DecidableEq, Repr

/-- The mode decision of `on_channel_open` (src/p2p.py line 121):
`if file_to_send and os.path.isfile(file_to_send)` — Python truthiness
makes both `None` and the empty string fall to the chat branch, and so
does a path that is not an existing regular file. -/
def channel_open_mode (fs : List (String × List Nat))
    (file_to_send : Option String) : PeerMode :=
  match file_to_send with
  | none => PeerMode.chat
  | some p =>
    if (!(p == "")) && isfile fs p then PeerMode.fileSend else PeerMode.chat

/-- The literal test message sent unconditionally on channel open
(src/p2p.py line 118). -/
def test_message : String := "Test message from this peer."

/-- As a channel message: the literal is not a JSON document, so
`json.loads` fails on it and it is embedded as `TextMsg.raw`. -/
def testWireMessage : WireMessage :=
  WireMessage.text (TextMsg.raw test_message)

/-- src/p2p.py lines 108-125, `on_channel_open`, unfolded into the full
sequence of messages this peer sends on the channel: first the
unconditional test message, then either the file-send stream or the chat
messages for the given operator input lines.  Chat lines are plain
operator text and are embedded with `TextMsg.raw`. -/
def on_channel_open_messages (fs : List (String × List Nat))
    (file_to_send : Option String) (chatLines : List String) :
    List WireMessage :=
  testWireMessage ::
    (match file_to_send with
     | some p =>
       if (!(p == "")) && isfile fs p then send_file fs p
       else (chat_prompt chatLines).map (fun s =>
         WireMessage.text (TextMsg.raw s))
     | none => (chat_prompt chatLines).map (fun s =>
         WireMessage.text (TextMsg.raw s)))

/-- An SDP session description as built on src/p2p.py lines 77-80 from the
pasted JSON (`RTCSessionDescription(sdp=..., type=...)`). -/
structure SessionDesc where
  sdp : String
  kind : String
deriving DecidableEq, Repr

/-- The parse step of src/p2p.py lines 76-80: `json.loads` on the pasted
text, then the `"sdp"` and `"type"` fields; a text that is not JSON, not
an object, or lacks string fields raises and yields `none` (the `except`
branch). -/
def parse_description (pasted : TextMsg) : Option SessionDesc :=
  match pasted with
  | TextMsg.raw _ => none
  | TextMsg.json _ v =>
    match v with
    | JVal.jobj fields =>
      match dictGet fields "sdp", dictGet fields "type" with
      | some (JPrim.pstr s), some (JPrim.pstr t) => some ⟨s, t⟩
      | _, _ => none
    | _ => none

/-- The engine calls the Answerer role performs, in order. -/
inductive HSEvent where
  | setRemoteDescription (kind : String) : HSEvent
  | createAnswer : HSEvent
  | setLocalDescription (kind : String) : HSEvent
  | printFailure : HSEvent
deriving DecidableEq, Repr

/-- src/p2p.py lines 64-106, `run_answer`, as its trace of engine calls:
parse the pasted offer (on failure print and return — lines 82-84); then
`setRemoteDescription` (line 81), `createAnswer` (line 94),
`setLocalDescription` (line 95). -/
def run_answer (pasted : TextMsg) : List HSEvent :=
  match parse_description pasted with
  | none => [HSEvent.printFailure]
  | some d =>
    [HSEvent.setRemoteDescription d.kind, HSEvent.createAnswer,
     HSEvent.setLocalDescription "answer"]

/-- Holds (`true`) iff no `createAnswer` occurs before the first
`setRemoteDescription` in the trace. -/
def answer_after_remote : List HSEvent → Bool
  | [] => true
  | HSEvent.createAnswer :: _ => false
  | HSEvent.setRemoteDescription _ :: _ => true
  | _ :: rest => answer_after_remote rest

/-- The teardown of src/p2p.py lines 266-274: on interrupt the `finally`
block only runs `pc.close()`; nothing is printed about transfers still in
`incoming_files` and no file on disk is touched (`hold_connection`, lines
224-231, merely sleeps until the interrupt). -/
def shutdown (s : ReceiverState) : ReceiverState × List Output :=
  (s, [])

theorem chunksOf_nil : chunksOf [] = [] := by
  rw [chunksOf]
  simp

theorem chunksOf_ne {bytes : List Nat} (h : bytes ≠ []) :
    chunksOf bytes =
      bytes.take chunk_size :: chunksOf (bytes.drop chunk_size) := by
  rw [chunksOf]
  simp [h]

/-- A receiver state holding exactly one inbound transfer with the
matching on-disk file. -/
def singleS (k : String) (sz r : Nat) (data : List Nat) : ReceiverState :=
  ⟨[(k, ⟨k, sz, r⟩)], [("received_" ++ k, data)]⟩

theorem handle_binary_single (k : String) (sz r : Nat) (data : List Nat)
    (payload : List Nat) :
    handle_binary_message (singleS k sz r data) payload =
      if sz ≤ r + payload.length then
        (⟨[], [("received_" ++ k, data ++ payload)]⟩,
         [Output.fileReceivedNote k])
      else
        (singleS k sz (r + payload.length) (data ++ payload), []) := by
  simp only [handle_binary_message, singleS, diskWrite, dictPop,
    List.map_cons, List.map_nil, List.filter]
  split
  · simp
  · simp

/-- Feeding the chunking of a nonempty byte list `rest` to a receiver that
still expects exactly `rest.length` more bytes finalizes the transfer with
the file fully written and exactly one completion event. -/
theorem run_chunks (k : String) (rest : List Nat) (r : Nat)
    (data : List Nat) (hne : rest ≠ []) :
    run_messages (singleS k (r + rest.length) r data)
        ((chunksOf rest).map WireMessage.binary) =
      (⟨[], [("received_" ++ k, data ++ rest)]⟩,
       [Output.fileReceivedNote k]) := by
  rw [chunksOf_ne hne]
  by_cases hle : rest.length ≤ chunk_size
  · have htake : rest.take chunk_size = rest := List.take_of_length_le hle
    have hdrop : rest.drop chunk_size = [] := by
      rw [List.drop_eq_nil_iff]
      exact hle
    rw [htake, hdrop, chunksOf_nil]
    simp only [List.map_nil, List.map_cons, run_messages,
      on_message_received, handle_binary_single, le_refl, if_pos]
    simp
  · push_neg at hle
    have htl : (rest.take chunk_size).length = chunk_size := by
      simp [List.length_take]
      omega
    have hdl : (rest.drop chunk_size).length = rest.length - chunk_size :=
      List.length_drop _ _
    have hdne : rest.drop chunk_size ≠ [] := by
      intro hz
      rw [List.drop_eq_nil_iff] at hz
      omega
    simp only [List.map_cons, run_messages, on_message_received,
      handle_binary_single, htl]
    rw [if_neg (by omega)]
    have ih := run_chunks k (rest.drop chunk_size) (r + chunk_size)
      (data ++ rest.take chunk_size) hdne
    rw [hdl] at ih
    have harith : r + chunk_size + (rest.length - chunk_size) =
        r + rest.length := by omega
    rw [harith] at ih
    rw [ih]
    simp [List.append_assoc, List.take_append_drop]
termination_by rest.length
decreasing_by
  simp only [List.length_drop]
  have : rest.length ≠ 0 := fun hz => hne (List.eq_nil_of_length_eq_zero hz)
  simp [chunk_size]
  omega

/-- The binary chunks among a message list (payloads in order). -/
def binaryChunks (ms : List WireMessage) : List (List Nat) :=
  ms.filterMap (fun m =>
    match m with
    | WireMessage.binary b => some b
    | _ => none)

theorem meta_step (s : ReceiverState) (name : String) (size : Nat) :
    on_message_received s (fileMetaMsg name size) =
      (⟨dictInsert s.incoming_files name ⟨name, size, 0⟩,
        dictInsert s.disk ("received_" ++ name) []⟩,
       [Output.incomingFileNote name size, Output.savedAsNote name]) := rfl

theorem dictInsert_nil {α : Type} (key : String) (v : α) :
    dictInsert ([] : List (String × α)) key v = [(key, v)] := rfl

theorem diskLookup_single (key : String) (content : List Nat) :
    diskLookup [(key, content)] key = some content := by
  simp [diskLookup, dictGet, List.find?]

theorem fileLookup_single (p : String) (content : List Nat) :
    fileLookup [(p, content)] p = some content := by
  simp [fileLookup, dictGet, List.find?]

theorem binaryChunks_send_file (fs : List (String × List Nat))
    (file_path : String) :
    binaryChunks (send_file fs file_path) =
      chunksOf ((fileLookup fs file_path).getD []) := by
  simp only [binaryChunks, send_file, fileMetaMsg, List.filterMap_cons,
    List.filterMap_map]
  simp [Function.comp_def]

theorem chunksOf_len_40000 (c : List Nat) (h : c.length = 40000) :
    (chunksOf c).map List.length = [16000, 16000, 8000] := by
  have h0 : c ≠ [] := by
    intro hz
    rw [hz] at h
    simp at h
  have hd1 : (c.drop chunk_size).length = 24000 := by
    simp [List.length_drop, h, chunk_size]
  have h1 : c.drop chunk_size ≠ [] := by
    intro hz
    rw [hz] at hd1
    simp at hd1
  have hd2 : ((c.drop chunk_size).drop chunk_size).length = 8000 := by
    simp [List.length_drop, h, chunk_size]
  have h2 : (c.drop chunk_size).drop chunk_size ≠ [] := by
    intro hz
    rw [hz] at hd2
    simp at hd2
  have h3 : ((c.drop chunk_size).drop chunk_size).drop chunk_size = [] := by
    rw [List.drop_eq_nil_iff, hd2]
    simp [chunk_size]
  rw [chunksOf_ne h0, chunksOf_ne h1, chunksOf_ne h2, h3, chunksOf_nil]
  simp [List.length_take, h, hd1, hd2, chunk_size]

/-- Claim C1: sending any file with `send_file` and feeding the resulting
message sequence (one metadata envelope, then the binary chunks in order)
to the receive procedure reconstructs, on disk, a file whose content is
byte-for-byte the original, for every file size (including sizes that are
not a multiple of the 16000-byte chunk constant); and a 40000-byte file is
streamed as exactly three binary chunks of 16000, 16000 and 8000 bytes. -/
theorem c1_round_trip_fidelity :
    (∀ (fs : List (String × List Nat)) (file_path : String)
        (content : List Nat),
      fileLookup fs file_path = some content →
      diskLookup
          ((run_messages emptyReceiver (send_file fs file_path)).1.disk)
          ("received_" ++ basename file_path) = some content) ∧
    (∀ (fs : List (String × List Nat)) (file_path : String)
        (content : List Nat),
      fileLookup fs file_path = some content →
      content.length = 40000 →
      (binaryChunks (send_file fs file_path)).map List.length =
        [16000, 16000, 8000]) := by
  constructor
  · intro fs file_path content h
    simp only [send_file, h, Option.getD_some, run_messages, meta_step,
      emptyReceiver, dictInsert_nil]
    by_cases hc : content = []
    · subst hc
      rw [chunksOf_nil]
      simp only [List.map_nil, run_messages]
      exact diskLookup_single _ _
    · have hr := run_chunks (basename file_path) content 0 [] hc
      rw [Nat.zero_add] at hr
      have hsingle : (⟨[(basename file_path,
            ⟨basename file_path, content.length, 0⟩)],
          [("received_" ++ basename file_path, [])]⟩ : ReceiverState) =
          singleS (basename file_path) content.length 0 [] := rfl
      rw [hsingle, hr]
      simp only [List.nil_append]
      exact diskLookup_single _ _
  · intro fs file_path content h h40
    rw [binaryChunks_send_file, h, Option.getD_some]
    exact chunksOf_len_40000 content h40

/-- Witness for C1 at concrete inputs: a 1-byte file round-trips, and a
40000-byte file is streamed as chunks of 16000 / 16000 / 8000 bytes. -/
theorem c1_round_trip_fidelity_witness :
    fileLookup [("f", [7])] "f" = some [7] ∧
    diskLookup
        ((run_messages emptyReceiver (send_file [("f", [7])] "f")).1.disk)
        ("received_" ++ basename "f") = some [7] ∧
    fileLookup [("g", List.replicate 40000 0)] "g" =
      some (List.replicate 40000 0) ∧
    (List.replicate 40000 (0 : Nat)).length = 40000 ∧
    (binaryChunks (send_file [("g", List.replicate 40000 0)] "g")).map
        List.length = [16000, 16000, 8000] :=
  ⟨fileLookup_single "f" [7],
   c1_round_trip_fidelity.1 [("f", [7])] "f" [7] (fileLookup_single "f" [7]),
   fileLookup_single "g" (List.replicate 40000 0),
   List.length_replicate 40000 0,
   c1_round_trip_fidelity.2 [("g", List.replicate 40000 0)] "g"
     (List.replicate 40000 0) (fileLookup_single "g" (List.replicate 40000 0))
     (List.length_replicate 40000 0)⟩

/-- Total byte count of a list of binary payloads. -/
def sumLen (msgs : List (List Nat)) : Nat :=
  (msgs.map List.length).sum

/-- The index of the first payload in `msgs` whose arrival makes the
received-byte counter (starting from `r`) reach or exceed the announced
size `sz`; `none` if the whole sequence stays short of `sz`. -/
def firstReach (r sz : Nat) : List (List Nat) → Option Nat
  | [] => none
  | m :: ms =>
    if sz ≤ r + m.length then some 0
    else (firstReach (r + m.length) sz ms).map (fun i => i + 1)

/-- With no inbound transfer open, every binary message is discarded with
a warning and the state never changes. -/
theorem run_binaries_empty_table (d : List (String × List Nat))
    (msgs : List (List Nat)) :
    run_messages ⟨[], d⟩ (msgs.map WireMessage.binary) =
      (⟨[], d⟩, List.replicate msgs.length Output.chunkWarning) := by
  induction msgs with
  | nil => rfl
  | cons m ms ih =>
    simp only [List.map_cons, run_messages, on_message_received,
      handle_binary_message, ih, List.replicate_succ]
    rfl

/-- Running a sequence of binary messages against a single open transfer:
if the byte counter never reaches the announced size the transfer stays
open with every chunk appended; otherwise the transfer is finalized
exactly on the first message that reaches the size (that message fully
appended, even when it overshoots), one completion event is printed, and
every later chunk is discarded with a warning. -/
theorem run_binaries_single (k : String) (sz : Nat)
    (msgs : List (List Nat)) :
    ∀ (r : Nat) (data : List Nat),
      (firstReach r sz msgs = none →
        run_messages (singleS k sz r data) (msgs.map WireMessage.binary) =
          (singleS k sz (r + sumLen msgs) (data ++ msgs.flatten), [])) ∧
      (∀ i, firstReach r sz msgs = some i →
        run_messages (singleS k sz r data) (msgs.map WireMessage.binary) =
          (⟨[], [("received_" ++ k, data ++ (msgs.take (i + 1)).flatten)]⟩,
           Output.fileReceivedNote k ::
             List.replicate (msgs.length - (i + 1)) Output.chunkWarning)) := by
  induction msgs with
  | nil =>
    intro r data
    constructor
    · intro _
      simp [run_messages, sumLen, singleS]
    · intro i hi
      simp [firstReach] at hi
  | cons m ms ih =>
    intro r data
    by_cases hle : sz ≤ r + m.length
    · constructor
      · intro hnone
        simp [firstReach, if_pos hle] at hnone
      · intro i hi
        have hi0 : i = 0 := by
          simp [firstReach, if_pos hle] at hi
          omega
        subst hi0
        simp only [List.map_cons, run_messages, on_message_received,
          handle_binary_single, if_pos hle]
        rw [run_binaries_empty_table]
        simp [List.flatten]
    · constructor
      · intro hnone
        have hin : firstReach (r + m.length) sz ms = none := by
          simp [firstReach, if_neg hle] at hnone
          exact hnone
        simp only [List.map_cons, run_messages, on_message_received,
          handle_binary_single, if_neg hle]
        rw [(ih (r + m.length) (data ++ m)).1 hin]
        have h1 : r + m.length + sumLen ms = r + sumLen (m :: ms) := by
          simp [sumLen]
          omega
        rw [h1]
        simp [singleS]
      · intro i hi
        have hj : ∃ j, firstReach (r + m.length) sz ms = some j ∧
            i = j + 1 := by
          simp [firstReach, if_neg hle] at hi
          obtain ⟨j, hj1, hj2⟩ := hi
          exact ⟨j, hj1, hj2.symm⟩
        obtain ⟨j, hj1, hj2⟩ := hj
        subst hj2
        simp only [List.map_cons, run_messages, on_message_received,
          handle_binary_single, if_neg hle]
        rw [(ih (r + m.length) (data ++ m)).2 j hj1]
        have h2 : (m :: ms).take (j + 1 + 1) = m :: ms.take (j + 1) :=
          List.take_succ_cons
        have h4 : (m :: ms).length - (j + 1 + 1) = ms.length - (j + 1) := by
          simp [List.length_cons]
        rw [h2, h4]
        simp

/-- Claim C2: for an inbound transfer, the receive procedure finalizes
(closes the sink and removes the table entry) exactly once, precisely on
the first binary message that makes the received-byte count reach or
exceed the announced size (`firstReach`); a final chunk that overshoots is
still appended in full and still triggers completion; no binary message
before that point closes the sink or removes the entry (the transfer
survives, with all bytes appended, whenever the size is never reached). -/
theorem c2_completion_exactly_once (k : String) (sz r : Nat)
    (data : List Nat) (msgs : List (List Nat)) :
    (firstReach r sz msgs = none →
      run_messages (singleS k sz r data) (msgs.map WireMessage.binary) =
        (singleS k sz (r + sumLen msgs) (data ++ msgs.flatten), [])) ∧
    (∀ i, firstReach r sz msgs = some i →
      run_messages (singleS k sz r data) (msgs.map WireMessage.binary) =
        (⟨[], [("received_" ++ k, data ++ (msgs.take (i + 1)).flatten)]⟩,
         Output.fileReceivedNote k ::
           List.replicate (msgs.length - (i + 1)) Output.chunkWarning)) :=
  run_binaries_single k sz msgs r data

/-- Witness for C2: announced size 3, chunks of 1 and 2+1 bytes — the
second chunk overshoots (4 ≥ 3), is appended in full, finalizes the
transfer, and is the only completion event. -/
theorem c2_completion_exactly_once_witness :
    firstReach 0 3 [[1], [2, 9]] = some 1 ∧
    run_messages (singleS "f" 3 0 []) ([[1], [2, 9]].map WireMessage.binary)
      = (⟨[], [("received_" ++ "f", [] ++ ([[1], [2, 9]].take 2).flatten)]⟩,
         Output.fileReceivedNote "f" ::
           List.replicate ([[1], [2, 9]].length - 2) Output.chunkWarning) :=
  ⟨by decide,
   (c2_completion_exactly_once "f" 3 0 [] [[1], [2, 9]]).2 1 (by decide)⟩

/-- Claim C3: a binary message arriving while the inbound-transfer table
has a size other than 1 only produces the warning: the chunk is written to
no sink, the table and every on-disk file are left exactly as they were
(the handler returns normally, so the session continues). -/
theorem c3_chunk_without_single_transfer (s : ReceiverState)
    (payload : List Nat) (h : s.incoming_files.length ≠ 1) :
    on_message_received s (WireMessage.binary payload) =
      (s, [Output.chunkWarning]) := by
  show handle_binary_message s payload = (s, [Output.chunkWarning])
  match hm : s.incoming_files with
  | [] =>
    rw [handle_binary_message, hm]
  | [(k, fi)] =>
    rw [hm] at h
    simp at h
  | (a :: b :: rest) =>
    rw [handle_binary_message, hm]

/-- Witness for C3: a chunk arriving with zero active transfers, and one
arriving with two active transfers, are both discarded with only the
warning. -/
theorem c3_chunk_without_single_transfer_witness :
    emptyReceiver.incoming_files.length ≠ 1 ∧
    on_message_received emptyReceiver (WireMessage.binary [1, 2]) =
      (emptyReceiver, [Output.chunkWarning]) ∧
    (ReceiverState.mk [("a", ⟨"a", 5, 0⟩), ("b", ⟨"b", 5, 0⟩)]
        [("received_a", []), ("received_b", [])]).incoming_files.length ≠ 1 ∧
    on_message_received
        ⟨[("a", ⟨"a", 5, 0⟩), ("b", ⟨"b", 5, 0⟩)],
         [("received_a", []), ("received_b", [])]⟩
        (WireMessage.binary [9]) =
      (⟨[("a", ⟨"a", 5, 0⟩), ("b", ⟨"b", 5, 0⟩)],
        [("received_a", []), ("received_b", [])]⟩,
       [Output.chunkWarning]) :=
  ⟨by decide,
   c3_chunk_without_single_transfer emptyReceiver [1, 2] (by decide),
   by decide,
   c3_chunk_without_single_transfer
     ⟨[("a", ⟨"a", 5, 0⟩), ("b", ⟨"b", 5, 0⟩)],
      [("received_a", []), ("received_b", [])]⟩ [9] (by decide)⟩

/-- Counterexample to C4 as stated: from an empty table, two metadata
announcements for different names leave the inbound-transfer table with
TWO entries, and the printed output contains only the informational notes
— no warning and no concurrent-transfer report of any kind. -/
theorem c4_counterexample :
    (run_messages emptyReceiver
        [fileMetaMsg "a" 5, fileMetaMsg "b" 5]).1.incoming_files.length
      = 2 ∧
    (run_messages emptyReceiver [fileMetaMsg "a" 5, fileMetaMsg "b" 5]).2
      = [Output.incomingFileNote "a" 5, Output.savedAsNote "a",
         Output.incomingFileNote "b" 5, Output.savedAsNote "b"] := by
  decide

/-- Claim C4 as amended: a file-metadata announcement is accepted into the
table unconditionally — whether or not a transfer is already active — with
only the two informational prints and never a report; a same-named
announcement overwrites the existing entry in place, and a differently
named announcement is appended, so the table can grow beyond one entry.
The single-transfer violation only surfaces later, through the
binary-message warning. -/
theorem c4_meta_accepted_unconditionally (s : ReceiverState)
    (name : String) (size : Nat) :
    on_message_received s (fileMetaMsg name size) =
      (⟨dictInsert s.incoming_files name ⟨name, size, 0⟩,
        dictInsert s.disk ("received_" ++ name) []⟩,
       [Output.incomingFileNote name size, Output.savedAsNote name]) ∧
    (s.incoming_files.any (fun p => p.1 == name) = false →
      (on_message_received s (fileMetaMsg name size)).1.incoming_files.length
        = s.incoming_files.length + 1) := by
  constructor
  · exact meta_step s name size
  · intro hnew
    rw [meta_step]
    simp [dictInsert, hnew]

/-- Witness for C4 (amended): a second, differently named announcement
arriving while one transfer is active grows the table to two entries. -/
theorem c4_meta_accepted_unconditionally_witness :
    ((ReceiverState.mk [("a", ⟨"a", 5, 0⟩)] [("received_a", [])]
        ).incoming_files.any (fun p => p.1 == "b")) = false ∧
    (on_message_received ⟨[("a", ⟨"a", 5, 0⟩)], [("received_a", [])]⟩
        (fileMetaMsg "b" 7)).1.incoming_files.length =
      (ReceiverState.mk [("a", ⟨"a", 5, 0⟩)] [("received_a", [])]
        ).incoming_files.length + 1 :=
  ⟨by decide,
   (c4_meta_accepted_unconditionally
     ⟨[("a", ⟨"a", 5, 0⟩)], [("received_a", [])]⟩ "b" 7).2 (by decide)⟩

/-- Counterexample to C5 as stated: after a 10-byte announcement and a
single 3-byte chunk the transfer is incomplete (3 < 10), yet `shutdown`
(the `finally` block of `main`) reports nothing at all — there is no
incomplete-transfer failure report; the partial file does remain on
disk. -/
theorem c5_counterexample :
    (run_messages emptyReceiver
        [fileMetaMsg "a" 10, WireMessage.binary [1, 2, 3]]).1.incoming_files
      = [("a", ⟨"a", 10, 3⟩)] ∧
    (shutdown (run_messages emptyReceiver
        [fileMetaMsg "a" 10, WireMessage.binary [1, 2, 3]]).1).2 = [] ∧
    diskLookup (shutdown (run_messages emptyReceiver
        [fileMetaMsg "a" 10, WireMessage.binary [1, 2, 3]]).1).1.disk
      "received_a" = some [1, 2, 3] := by
  decide

/-- Claim C5 as amended: when the session terminates while an inbound
transfer has received fewer bytes than announced, the program emits no
report of any kind at shutdown (in particular no incomplete-transfer
failure), and the partially written output file is left on disk rather
than deleted (the transfer table is not touched either). -/
theorem c5_shutdown_silent_keeps_partial_file (s : ReceiverState)
    (name : String) (fi : FileEntry)
    (hmem : (name, fi) ∈ s.incoming_files)
    (hinc : fi.received_bytes < fi.file_size) :
    (shutdown s).2 = [] ∧ (shutdown s).1.disk = s.disk ∧
    (shutdown s).1.incoming_files = s.incoming_files :=
  ⟨rfl, rfl, rfl⟩

/-- Witness for C5 (amended) at the incomplete transfer of the
counterexample's shape. -/
theorem c5_shutdown_silent_keeps_partial_file_witness :
    (("a", (⟨"a", 10, 3⟩ : FileEntry)) ∈
      [("a", (⟨"a", 10, 3⟩ : FileEntry))]) ∧
    ((⟨"a", 10, 3⟩ : FileEntry).received_bytes <
      (⟨"a", 10, 3⟩ : FileEntry).file_size) ∧
    (shutdown ⟨[("a", ⟨"a", 10, 3⟩)], [("received_a", [1, 2, 3])]⟩).2 = [] ∧
    (shutdown ⟨[("a", ⟨"a", 10, 3⟩)],
        [("received_a", [1, 2, 3])]⟩).1.disk = [("received_a", [1, 2, 3])] :=
  ⟨by decide, by decide,
   (c5_shutdown_silent_keeps_partial_file
     ⟨[("a", ⟨"a", 10, 3⟩)], [("received_a", [1, 2, 3])]⟩ "a" ⟨"a", 10, 3⟩
     (by decide) (by decide)).1,
   ((c5_shutdown_silent_keeps_partial_file
     ⟨[("a", ⟨"a", 10, 3⟩)], [("received_a", [1, 2, 3])]⟩ "a" ⟨"a", 10, 3⟩
     (by decide) (by decide)).2).1⟩

/-- Counterexample to C6 as stated: the chat loop does not forward lines
verbatim — a line with surrounding whitespace is sent stripped, and a line
that is blank after stripping is silently dropped, not forwarded. -/
theorem c6_counterexample :
    chat_prompt ["  hello  "] = ["hello"] ∧
    ("hello" : String) ≠ "  hello  " ∧
    chat_prompt [" "] = [] := by
  decide

/-- Claim C6 as amended: each operator line is stripped of surrounding
whitespace; a line empty after stripping is dropped; a stripped line equal
to `"bye"` case-insensitively terminates the local chat loop right after
sending the departure announcement to the peer (the channel itself is
never closed — `chat_prompt` only ever emits `channel.send` calls); every
other line is forwarded exactly once, in its stripped form, in input
order. -/
theorem c6_chat_lines_stripped_not_verbatim (lines : List String) :
    chat_prompt lines =
      ((lines.map pystrip).takeWhile
          (fun m => !(pylower m == "bye"))).filter (fun m => !(m == "")) ++
        (if (lines.map pystrip).all (fun m => !(pylower m == "bye"))
         then [] else ["Peer has left the chat."]) := by
  induction lines with
  | nil => rfl
  | cons line rest ih =>
    by_cases h2 : pylower (pystrip line) = "bye"
    · have h1 : pystrip line ≠ "" := by
        intro hz
        rw [hz] at h2
        exact absurd h2 (by decide)
      have e1 : chat_prompt (line :: rest) = ["Peer has left the chat."] := by
        simp [chat_prompt, h1, h2]
      have hb : (!(pylower (pystrip line) == "bye")) = false := by
        simp [h2]
      rw [e1, List.map_cons, List.takeWhile_cons, hb]
      simp [hb]
    · have hb : (!(pylower (pystrip line) == "bye")) = true := by
        simp [h2]
      by_cases h1 : pystrip line = ""
      · have e1 : chat_prompt (line :: rest) = chat_prompt rest := by
          simp [chat_prompt, h1]
        rw [e1, ih, List.map_cons, List.takeWhile_cons, hb]
        simp only [if_true, List.all_cons, hb, Bool.true_and]
        rw [List.filter_cons]
        simp [h1]
      · have e1 : chat_prompt (line :: rest) =
            pystrip line :: chat_prompt rest := by
          simp [chat_prompt, h1, h2]
        rw [e1, ih, List.map_cons, List.takeWhile_cons, hb]
        simp only [if_true, List.all_cons, hb, Bool.true_and]
        rw [List.filter_cons]
        simp [h1]

/-- The `type` field of a JSON document: its top-level `"type"` entry when
the document is an object, and nothing otherwise. -/
def jsonGet (v : JVal) (key : String) : Option JPrim :=
  match v with
  | JVal.jobj fields => dictGet fields key
  | _ => none

/-- How a JSON text that is not a metadata announcement is surfaced:
`print("Peer:", data)` when it is an object reaching the `else` branch,
`print("Peer:", message)` via the `except` branch otherwise. -/
def chatView (wire : String) (v : JVal) : Output :=
  match v with
  | JVal.jobj _ => Output.chatJson v
  | _ => Output.chatRaw wire

/-- Claim C7: a textual message that parses as JSON but whose `type` field
is not `"file_meta"` (or is absent, including non-object documents) is
surfaced to the operator as a chat message and leaves the receiver state
unchanged — in particular no inbound-transfer entry is created. -/
theorem c7_non_meta_json_is_chat (s : ReceiverState) (wire : String)
    (v : JVal) (h : jsonGet v "type" ≠ some (JPrim.pstr "file_meta")) :
    on_message_received s (WireMessage.text (TextMsg.json wire v)) =
      (s, [chatView wire v]) := by
  cases v with
  | prim p => rfl
  | jarr xs => rfl
  | jobj fields =>
    have hne : ¬ (dictGet fields "type" = some (JPrim.pstr "file_meta")) := by
      simpa [jsonGet] using h
    simp [on_message_received, chatView, hne]

/-- Witness for C7: a JSON object with `type` equal to `"chat"` is shown
as chat and creates no transfer entry. -/
theorem c7_non_meta_json_is_chat_witness :
    jsonGet (JVal.jobj [("type", JPrim.pstr "chat"), ("x", JPrim.pnat 1)])
        "type" ≠ some (JPrim.pstr "file_meta") ∧
    on_message_received emptyReceiver (WireMessage.text (TextMsg.json "w"
        (JVal.jobj [("type", JPrim.pstr "chat"), ("x", JPrim.pnat 1)]))) =
      (emptyReceiver,
       [chatView "w"
         (JVal.jobj [("type", JPrim.pstr "chat"), ("x", JPrim.pnat 1)])]) :=
  ⟨by decide,
   c7_non_meta_json_is_chat emptyReceiver "w"
     (JVal.jobj [("type", JPrim.pstr "chat"), ("x", JPrim.pnat 1)])
     (by decide)⟩

/-- Counterexample to C8 as stated: a file path was supplied, but because
it does not name an existing regular file the program silently starts
interactive chat instead of file send. -/
theorem c8_counterexample :
    channel_open_mode [] (some "missing.txt") = PeerMode.chat ∧
    (some "missing.txt" : Option String) ≠ none := by
  decide

/-- Claim C8 as amended: when the channel opens, exactly one of the two
mutually exclusive modes starts — file send if and only if a nonempty file
path was supplied AND it names an existing regular file
(`os.path.isfile`); interactive chat in every other case, including a
supplied path that does not exist (inbound messages are handled by
`on_message_received` in both modes, registered independently of the
choice). -/
theorem c8_mode_requires_existing_file (fs : List (String × List Nat))
    (arg : Option String) :
    (channel_open_mode fs arg = PeerMode.fileSend ↔
      ∃ p, arg = some p ∧ p ≠ "" ∧ isfile fs p = true) ∧
    (channel_open_mode fs arg = PeerMode.chat ↔
      ¬ ∃ p, arg = some p ∧ p ≠ "" ∧ isfile fs p = true) := by
  cases arg with
  | none => simp [channel_open_mode]
  | some p =>
    by_cases h1 : p = ""
    · subst h1
      simp [channel_open_mode]
    · by_cases h2 : isfile fs p = true
      · simp [channel_open_mode, h1, h2]
      · simp only [Bool.not_eq_true] at h2
        simp [channel_open_mode, h1, h2]

/-- Claim C9: in the Answerer role the pasted remote Offer is parsed and
committed (`setRemoteDescription`) strictly before the local Answer is
generated (`createAnswer`) and committed (`setLocalDescription`); when the
paste fails to parse, no Answer is ever created. -/
theorem c9_remote_committed_before_answer (pasted : TextMsg) :
    answer_after_remote (run_answer pasted) = true ∧
    (parse_description pasted = none →
      HSEvent.createAnswer ∉ run_answer pasted) ∧
    (∀ d, parse_description pasted = some d →
      run_answer pasted =
        [HSEvent.setRemoteDescription d.kind, HSEvent.createAnswer,
         HSEvent.setLocalDescription "answer"]) := by
  cases hp : parse_description pasted with
  | none =>
    refine ⟨by simp [run_answer, hp, answer_after_remote], ?_, ?_⟩
    · intro _
      simp [run_answer, hp]
    · intro d hd
      exact absurd hd (by simp)
  | some d =>
    refine ⟨by simp [run_answer, hp, answer_after_remote], ?_, ?_⟩
    · intro hnone
      exact absurd hnone (by simp)
    · intro d' hd'
      have : d = d' := by
        injection hd'
      subst this
      simp [run_answer, hp]

/-- Witness for C9: a non-JSON paste produces no Answer at all; a valid
offer paste produces the three engine calls in the committed-before-
created order. -/
theorem c9_remote_committed_before_answer_witness :
    parse_description (TextMsg.raw "garbage") = none ∧
    HSEvent.createAnswer ∉ run_answer (TextMsg.raw "garbage") ∧
    parse_description (TextMsg.json "w" (JVal.jobj
        [("sdp", JPrim.pstr "S"), ("type", JPrim.pstr "offer")])) =
      some ⟨"S", "offer"⟩ ∧
    run_answer (TextMsg.json "w" (JVal.jobj
        [("sdp", JPrim.pstr "S"), ("type", JPrim.pstr "offer")])) =
      [HSEvent.setRemoteDescription "offer", HSEvent.createAnswer,
       HSEvent.setLocalDescription "answer"] :=
  ⟨by decide,
   (c9_remote_committed_before_answer (TextMsg.raw "garbage")).2.1
     (by decide),
   by decide,
   (c9_remote_committed_before_answer (TextMsg.json "w" (JVal.jobj
       [("sdp", JPrim.pstr "S"), ("type", JPrim.pstr "offer")]))).2.2
     ⟨"S", "offer"⟩ (by decide)⟩

/-- Holds (`true`) exactly on a file-metadata envelope. -/
def isFileMeta : WireMessage → Bool
  | WireMessage.text (TextMsg.json _ (JVal.jobj fields)) =>
    dictGet fields "type" == some (JPrim.pstr "file_meta")
  | _ => false

/-- Claim C10: on every channel-open event, before either mode begins, the
peer unconditionally sends the literal text `"Test message from this
peer."` as the very first message on the channel; it is not a metadata
envelope (so it precedes any file-metadata envelope in the sent sequence),
and the remote receive path surfaces it as a chat message without touching
the receiver state. -/
theorem c10_test_message_first (fs : List (String × List Nat))
    (arg : Option String) (chatLines : List String) (s : ReceiverState) :
    (∃ tl, on_channel_open_messages fs arg chatLines =
      testWireMessage :: tl) ∧
    isFileMeta testWireMessage = false ∧
    on_message_received s testWireMessage =
      (s, [Output.chatRaw test_message]) :=
  ⟨⟨_, rfl⟩, rfl, rfl⟩
